import Mathlib

/-!
Shallow embedding of `runtime/context.go` from the vendored
`github.com/grpc-ecosystem/grpc-gateway/runtime` package: the timeout
string codec (`timeoutDecode`, `timeoutUnitToDuration`), the context
annotation algorithm (`AnnotateContext`) and the server-metadata carrier
(`NewServerMetadataContext` / `ServerMetadataFromContext`).

Go strings are modelled as `List Char`; all the strings the code
manipulates (header names, unit characters, digits) are ASCII, where
bytes and characters coincide.  Go `int64` values are modelled as `Int`
together with an explicit two's-complement wrap `wrap64` at every point
where the Go code can overflow.
-/

namespace GrpcGatewayRuntime

/-- Two's-complement wrap of an integer into the signed 64-bit range,
the result of any Go `int64` arithmetic operation. -/
def wrap64 (x : Int) : Int :=
  (x + 2 ^ 63) % 2 ^ 64 - 2 ^ 63

/-- Value of a list of decimal digit characters, most significant first
(the accumulator loop of Go `strconv.ParseUint`). -/
def digitsToNat (ds : List Char) : Nat :=
  ds.foldl (fun a c => a * 10 + (c.toNat - 48)) 0

/-- Model of Go `strconv.ParseInt(s, 10, 64)`: an optional leading sign
followed by at least one decimal digit; the value must lie in
`[-2^63, 2^63 - 1]`, otherwise the parse reports a range error
(modelled, like a syntax error, as `none`). -/
def parseInt64 (s : List Char) : Option Int :=
  match s with
  | [] => none
  | c :: rest =>
    let digits := if c = '+' ∨ c = '-' then rest else c :: rest
    if digits = [] then none
    else if ¬ digits.all Char.isDigit then none
    else
      let un : Nat := digitsToNat digits
      if c = '-' then
        if un ≤ 2 ^ 63 then some (-(un : Int)) else none
      else
        if un ≤ 2 ^ 63 - 1 then some (un : Int) else none

/-- Source `timeoutUnitToDuration`: maps a unit character to a
`time.Duration` (a count of nanoseconds); `none` models `ok = false`. -/
def timeoutUnitToDuration (u : Char) : Option Int :=
  if u = 'H' then some 3600000000000
  else if u = 'M' then some 60000000000
  else if u = 'S' then some 1000000000
  else if u = 'm' then some 1000000
  else if u = 'u' then some 1000
  else if u = 'n' then some 1
  else none

/-- Source `timeoutDecode`: rejects strings shorter than two characters,
looks the last character up as a unit, parses the rest with
`strconv.ParseInt(_, 10, 64)` and returns `d * time.Duration(t)`
(a wrapping 64-bit multiplication).  `none` models a non-nil error. -/
def timeoutDecode (s : List Char) : Option Int :=
  if s.length < 2 then none
  else
    match timeoutUnitToDuration (s.getLastD ' ') with
    | none => none
    | some d =>
      match parseInt64 s.dropLast with
      | none => none
      | some t => some (wrap64 (d * t))


/-! ### Requests, host/port splitting and the Go context chain -/

/-- Index of the first occurrence of a character (Go `byteIndex`). -/
def idxOf? (c : Char) (cs : List Char) : Option Nat :=
  cs.findIdx? (· == c)

/-- Index of the last occurrence of a character (Go `last`). -/
def lastIdxOf (c : Char) (cs : List Char) : Option Nat :=
  match cs.reverse.findIdx? (· == c) with
  | some i => some (cs.length - 1 - i)
  | none => none

/-- Model of Go `net.SplitHostPort`: the port starts after the last colon;
a bracketed `[host]` form must have its closing bracket directly before that
colon; an unbracketed host may contain no colon; stray brackets are rejected.
`none` models a non-nil error (every error branch of the Go function). -/
def splitHostPort (hostport : String) : Option (String × String) :=
  let cs := hostport.data
  match lastIdxOf ':' cs with
  | none => none
  | some i =>
    if cs.headD ' ' = '[' then
      match idxOf? ']' cs with
      | none => none
      | some e =>
        if e + 1 = cs.length then none
        else if e + 1 ≠ i then none
        else if (cs.drop 1).contains '[' then none
        else if (cs.drop (e + 1)).contains ']' then none
        else some (⟨(cs.take e).drop 1⟩, ⟨cs.drop (i + 1)⟩)
    else
      if (cs.take i).contains ':' then none
      else if cs.contains '[' then none
      else if cs.contains ']' then none
      else some (⟨cs.take i⟩, ⟨cs.drop (i + 1)⟩)


/-- Model of Go `strings.ToLower` (character-wise lowering; every string it
is applied to in this file is ASCII, where Go and Lean lowering agree). -/
def strToLower (s : String) : String := String.mk (s.data.map Char.toLower)

/-- Source constant `MetadataHeaderPrefix`. -/
def metadataHeaderPfx : String := "Grpc-Metadata-"

/-- Source constant `metadataGrpcTimeout`. -/
def metadataGrpcTimeout : String := "Grpc-Timeout"

/-- Source constant `xForwardedFor`. -/
def xForwardedFor : String := "X-Forwarded-For"

/-- Source constant `xForwardedHost`. -/
def xForwardedHost : String := "X-Forwarded-Host"

/-- The facts `AnnotateContext` reads from an `*http.Request`: the header
multi-map (Go keeps names in canonical MIME casing), the declared host and
the remote address.  The Go header map is modelled as an association list;
`AnnotateContext` fixes no iteration order across distinct names, and none
of the claims depends on one. -/
structure Request where
  header : List (String × List String)
  host : String
  remoteAddr : String

/-- Model of Go `http.Header.Get`: first value stored under the (already
canonical) key, or `""` when the key is absent or has no values. -/
def headerGet (h : List (String × List String)) (key : String) : String :=
  match h.find? (fun kv => kv.1 == key) with
  | some kv => kv.2.headD ""
  | none => ""

/-- `metadata.MD` of the grpc library, only carried opaquely here. -/
abbrev MD := List (String × List String)

/-- Source `ServerMetadata`: metadata sent from the gRPC server. -/
structure ServerMetadata where
  headerMD : MD
  trailerMD : MD
deriving DecidableEq

/-- Modelled from the spec: the Go `context.Context` derivation chain
(`golang.org/x/net/context` is not under src/).  A context is its base or a
child recording one binding — a deadline (`context.WithTimeout`, which per
the spec derives "a child context with a deadline equal to now + timeout"),
an outbound Metadata Set (`metadata.NewContext`), or a `ServerMetadata`
carrier (`context.WithValue` under the private `serverMetadataKey`). -/
inductive Ctx where
  | base
  | withDeadline (parent : Ctx) (deadline : Int)
  | withMD (parent : Ctx) (pairs : List (String × String))
  | withServerMD (parent : Ctx) (md : ServerMetadata)
deriving DecidableEq

/-- Modelled from the spec: deadline carried by a context — the nearest
deadline binding on the chain (`none` = no deadline imposed). -/
def Ctx.deadline : Ctx → Option Int
  | Ctx.base => none
  | Ctx.withDeadline _ d => some d
  | Ctx.withMD parent _ => Ctx.deadline parent
  | Ctx.withServerMD parent _ => Ctx.deadline parent

/-- Modelled from the spec: reading the outbound Metadata Set back from a
context (`metadata.FromContext`) — nearest binding on the chain, `absent`
(`none`) when no set was ever attached. -/
def mdFromContext : Ctx → Option (List (String × String))
  | Ctx.base => none
  | Ctx.withDeadline parent _ => mdFromContext parent
  | Ctx.withMD _ md => some md
  | Ctx.withServerMD parent _ => mdFromContext parent

/-! ### `AnnotateContext` -/

/-- grpc status codes used by this file (`google.golang.org/grpc/codes`). -/
inductive Code where
  | invalidArgument
deriving DecidableEq

/-- A non-nil error returned by `grpc.Errorf(code, format, args...)`. -/
structure GrpcError where
  code : Code
  msg : String
deriving DecidableEq

/-- Modelled from the spec: `metadata.Pairs` of the grpc library (not under
src/) — builds the attached Metadata Set from the flat alternating
key/value list, an "ordered sequence of (key, value) string pairs" in which
"duplicates are preserved" and "insertion order meaningful"; "keys are
case-normalized to lowercase before being placed in the set". -/
def pairsMD : List String → List (String × String)
  | k :: v :: rest => (strToLower k, v) :: pairsMD rest
  | _ => []

/-- The header-projection loop of `AnnotateContext` (context.go:53-63):
for each value of each header, an `Authorization` header is passed through
under the key `authorization`, a `Grpc-Metadata-*` header is passed through
with the prefix stripped, and all other headers contribute nothing. -/
def projectHeaders (header : List (String × List String)) : List String :=
  header.foldl
    (fun pairs kv =>
      kv.2.foldl
        (fun pairs val =>
          if kv.1 == "Authorization" then pairs ++ ["authorization", val]
          else if kv.1.startsWith metadataHeaderPfx then
            pairs ++ [kv.1.drop metadataHeaderPfx.length, val]
          else pairs)
        pairs)
    []

/-- The forwarded-host block of `AnnotateContext` (context.go:64-68):
prefer an explicit `X-Forwarded-Host` header value, fall back to the
request's host, emit nothing when both are empty. -/
def forwardHostStage (req : Request) (pairs : List String) : List String :=
  let host := headerGet req.header xForwardedHost
  if host ≠ "" then pairs ++ [strToLower xForwardedHost, host]
  else if req.host ≠ "" then pairs ++ [strToLower xForwardedHost, req.host]
  else pairs

/-- The forwarded-for block of `AnnotateContext` (context.go:70-80): when
the remote address is non-empty and splits as host:port, append the remote
IP to the raw inbound `X-Forwarded-For` value (comma-space join) or emit it
alone; a split failure is only logged (`grpclog.Printf`) and emits nothing. -/
def forwardForStage (req : Request) (pairs : List String) : List String :=
  if req.remoteAddr ≠ "" then
    match splitHostPort req.remoteAddr with
    | some (remoteIP, _port) =>
      let fwd := headerGet req.header xForwardedFor
      if fwd = "" then pairs ++ [strToLower xForwardedFor, remoteIP]
      else pairs ++ [strToLower xForwardedFor, fwd ++ ", " ++ remoteIP]
    | none => pairs
  else pairs

/-- Source `AnnotateContext` (context.go:42-88).  The Go function returns
`(nil, err)` on a timeout decode failure and `(ctx', nil)` otherwise;
that pair is modelled as `Except`.  The process-wide variable
`DefaultContextTimeout` and the current time (read inside
`context.WithTimeout`) are passed as parameters. -/
def AnnotateContext (defaultContextTimeout now : Int) (ctx : Ctx) (req : Request) :
    Except GrpcError Ctx :=
  let tm := headerGet req.header metadataGrpcTimeout
  let timeoutStep : Except GrpcError Int :=
    if tm ≠ "" then
      match timeoutDecode tm.data with
      | some t => Except.ok t
      | none => Except.error ⟨Code.invalidArgument, "invalid grpc-timeout: " ++ tm⟩
    else Except.ok defaultContextTimeout
  match timeoutStep with
  | Except.error e => Except.error e
  | Except.ok timeout =>
    let pairs := projectHeaders req.header
    let pairs := forwardHostStage req pairs
    let pairs := forwardForStage req pairs
    let ctx := if timeout ≠ 0 then Ctx.withDeadline ctx (now + timeout) else ctx
    if pairs.length = 0 then Except.ok ctx
    else Except.ok (Ctx.withMD ctx (pairsMD pairs))

/-- The timeout `AnnotateContext` ends up applying: the decoded
`Grpc-Timeout` header when one is present, the process default otherwise;
`none` when decoding fails. -/
def effectiveTimeout (defaultContextTimeout : Int) (req : Request) : Option Int :=
  let tm := headerGet req.header metadataGrpcTimeout
  if tm ≠ "" then timeoutDecode tm.data else some defaultContextTimeout

/-! ### The server-metadata carrier -/

/-- Source `NewServerMetadataContext`: creates a new context with
`ServerMetadata` (a `context.WithValue` under the private key). -/
def NewServerMetadataContext (ctx : Ctx) (md : ServerMetadata) : Ctx :=
  Ctx.withServerMD ctx md

/-- Source `ServerMetadataFromContext`: `ctx.Value(serverMetadataKey{})`
walks the derivation chain to the nearest carrier binding; the type
assertion always succeeds since only `NewServerMetadataContext` binds that
key.  Lookup semantics of the chain modelled from the spec
(`golang.org/x/net/context` is not under src/): "looks up a carrier bound
directly via `attach` on this context or an ancestor". -/
def ServerMetadataFromContext : Ctx → Option ServerMetadata
  | Ctx.base => none
  | Ctx.withDeadline parent _ => ServerMetadataFromContext parent
  | Ctx.withMD parent _ => ServerMetadataFromContext parent
  | Ctx.withServerMD _ md => some md

/-! ### Derived and claim-side definitions -/

/-- The flat pair list the two forwarding blocks contribute on their own
(they append to the shared `pairs` slice; see `forwardHostStage_split` and
`forwardForStage_split`). -/
def forwardPairs (req : Request) : List String :=
  forwardForStage req (forwardHostStage req [])

/-- The Metadata Set attached by the outermost binding of a context,
if that binding is a metadata attachment. -/
def attachedMD : Ctx → Option (List (String × String))
  | Ctx.withMD _ md => some md
  | _ => none

/-- Per-value emission rule of the header projection as the spec words it:
`Authorization` passes through as `authorization`, a `Grpc-Metadata-`
name passes through with the prefix stripped and the remainder verbatim,
anything else emits nothing. -/
def specEmit (key val : String) : List String :=
  if key = "Authorization" then ["authorization", val]
  else if key.startsWith "Grpc-Metadata-" then [key.drop "Grpc-Metadata-".length, val]
  else []

/-- Forwarded-host rule as the spec words it: the explicit forwarded-host
header value if present, else the declared host if non-empty, else
nothing. -/
def specFwdHost (req : Request) : List String :=
  let v := headerGet req.header xForwardedHost
  if v ≠ "" then ["x-forwarded-host", v]
  else if req.host ≠ "" then ["x-forwarded-host", req.host]
  else []

/-- Forwarded-for rule as the spec words it: when the remote address
splits into host and port, the remote IP joined after the raw inbound
`x-forwarded-for` value (comma-space, existing value first) or alone;
when it cannot be split, nothing. -/
def specFwdFor (req : Request) : List String :=
  match splitHostPort req.remoteAddr with
  | some (remoteIP, _port) =>
    let fwd := headerGet req.header xForwardedFor
    if fwd = "" then ["x-forwarded-for", remoteIP]
    else ["x-forwarded-for", fwd ++ ", " ++ remoteIP]
  | none => []

/-- `d` is `c` itself or a context derived from `c` by any chain of
bindings (the "descendant" of claim C9). -/
inductive DerivedFrom : Ctx → Ctx → Prop where
  | refl (c : Ctx) : DerivedFrom c c
  | deadline {c p : Ctx} (d : Int) : DerivedFrom c p → DerivedFrom c (Ctx.withDeadline p d)
  | md {c p : Ctx} (m : List (String × String)) : DerivedFrom c p → DerivedFrom c (Ctx.withMD p m)
  | server {c p : Ctx} (m : ServerMetadata) : DerivedFrom c p → DerivedFrom c (Ctx.withServerMD p m)

/-- `d` is `c` itself or derived from `c` without any further carrier
attachment on the way. -/
inductive DerivedNoCarrier : Ctx → Ctx → Prop where
  | refl (c : Ctx) : DerivedNoCarrier c c
  | deadline {c p : Ctx} (d : Int) : DerivedNoCarrier c p → DerivedNoCarrier c (Ctx.withDeadline p d)
  | md {c p : Ctx} (m : List (String × String)) : DerivedNoCarrier c p → DerivedNoCarrier c (Ctx.withMD p m)

/-- No carrier was ever attached anywhere on the chain of `c`. -/
def noCarrier : Ctx → Bool
  | Ctx.base => true
  | Ctx.withDeadline parent _ => noCarrier parent
  | Ctx.withMD parent _ => noCarrier parent
  | Ctx.withServerMD _ _ => false

/-- Claim C2's wording of the prefix condition: the prefix parses as a
base-10 non-negative integer within 64-bit range. -/
def parsesNonNegInt64 (ds : List Char) : Bool :=
  match parseInt64 ds with
  | some n => decide (0 ≤ n)
  | none => false

/-- `req` with every `Grpc-Timeout` header entry removed. -/
def deleteGrpcTimeout (req : Request) : Request :=
  ⟨req.header.filter (fun kv => kv.1 != metadataGrpcTimeout), req.host, req.remoteAddr⟩

/-! ### Helper lemmas -/

example : timeoutDecode "2H".data = some 7200000000000 := by decide
example : timeoutDecode "500m".data = some 500000000 := by decide
example : timeoutDecode "10n".data = some 10 := by decide
example : timeoutDecode "5".data = none := by decide
example : timeoutDecode "5X".data = none := by decide
example : timeoutDecode "abcS".data = none := by decide
example : timeoutDecode "-5S".data = some (-5000000000) := by decide

example : splitHostPort "10.0.0.5:4321" = some ("10.0.0.5", "4321") := by decide
example : splitHostPort "10.0.0.5" = none := by decide
example : splitHostPort "" = none := by decide
example : splitHostPort "[::1]:80" = some ("::1", "80") := by decide

theorem foldl_emit {α γ : Type} (g : List γ → α → List γ) (e : α → List γ)
    (hg : ∀ acc x, g acc x = acc ++ e x) :
    ∀ (l : List α) (init : List γ), l.foldl g init = init ++ l.flatMap e := by
  intro l
  induction l with
  | nil => intro init; simp
  | cons x xs ih =>
    intro init
    simp only [List.foldl_cons, List.flatMap_cons, hg]
    rw [ih]
    simp [List.append_assoc]

theorem emit_eq (key val : String) (pairs : List String) :
    (if key == "Authorization" then pairs ++ ["authorization", val]
     else if key.startsWith metadataHeaderPfx then
       pairs ++ [key.drop metadataHeaderPfx.length, val]
     else pairs) = pairs ++ specEmit key val := by
  simp only [specEmit, metadataHeaderPfx]
  by_cases h1 : key = "Authorization"
  · simp [h1]
  · by_cases h2 : key.startsWith "Grpc-Metadata-"
    · simp [h1, h2]
    · simp [h1, h2]

theorem projectHeaders_eq (header : List (String × List String)) :
    projectHeaders header =
      header.flatMap (fun kv => kv.2.flatMap (fun val => specEmit kv.1 val)) := by
  have hinner : ∀ (kv : String × List String) (acc : List String),
      kv.2.foldl
        (fun pairs val =>
          if kv.1 == "Authorization" then pairs ++ ["authorization", val]
          else if kv.1.startsWith metadataHeaderPfx then
            pairs ++ [kv.1.drop metadataHeaderPfx.length, val]
          else pairs)
        acc = acc ++ kv.2.flatMap (fun val => specEmit kv.1 val) := by
    intro kv acc
    exact foldl_emit _ _ (fun a v => emit_eq kv.1 v a) kv.2 acc
  unfold projectHeaders
  simpa using foldl_emit _ _ (fun acc kv => hinner kv acc) header []

theorem forwardHostStage_split (req : Request) (pairs : List String) :
    forwardHostStage req pairs = pairs ++ forwardHostStage req [] := by
  unfold forwardHostStage
  by_cases h1 : headerGet req.header xForwardedHost ≠ "" <;>
    by_cases h2 : req.host ≠ "" <;> simp [h1, h2]

theorem forwardForStage_split (req : Request) (pairs : List String) :
    forwardForStage req pairs = pairs ++ forwardForStage req [] := by
  unfold forwardForStage
  by_cases h1 : req.remoteAddr ≠ ""
  · cases hsp : splitHostPort req.remoteAddr with
    | none => simp [h1, hsp]
    | some p =>
      by_cases h2 : headerGet req.header xForwardedFor = "" <;> simp [h1, hsp, h2]
  · simp [h1]

theorem strToLower_xfh : strToLower xForwardedHost = "x-forwarded-host" := by decide

theorem strToLower_xff : strToLower xForwardedFor = "x-forwarded-for" := by decide

theorem forwardHostStage_nil (req : Request) :
    forwardHostStage req [] = specFwdHost req := by
  unfold forwardHostStage specFwdHost
  by_cases h1 : headerGet req.header xForwardedHost ≠ "" <;>
    by_cases h2 : req.host ≠ "" <;> simp [h1, h2, strToLower_xfh]

theorem splitHostPort_empty : splitHostPort "" = none := by decide

theorem forwardForStage_nil (req : Request) :
    forwardForStage req [] = specFwdFor req := by
  unfold forwardForStage specFwdFor
  by_cases h1 : req.remoteAddr ≠ ""
  · cases hsp : splitHostPort req.remoteAddr with
    | none => simp [h1, hsp]
    | some p =>
      by_cases h2 : headerGet req.header xForwardedFor = "" <;>
        simp [h1, hsp, h2, strToLower_xff]
  · rw [not_not] at h1
    simp [h1, splitHostPort_empty]

theorem forwardPairs_decomp (req : Request) :
    forwardPairs req = forwardHostStage req [] ++ forwardForStage req [] := by
  unfold forwardPairs
  rw [forwardForStage_split]

theorem forwardPairs_eq (req : Request) :
    forwardPairs req = specFwdHost req ++ specFwdFor req := by
  rw [forwardPairs_decomp, forwardHostStage_nil, forwardForStage_nil]

theorem pairs_decomp (req : Request) (p : List String) :
    forwardForStage req (forwardHostStage req p) = p ++ forwardPairs req := by
  rw [forwardForStage_split, forwardHostStage_split, forwardPairs_decomp,
    List.append_assoc]

theorem specEmit_even (key val : String) : (specEmit key val).length % 2 = 0 := by
  unfold specEmit
  split_ifs <;> simp

theorem flatMap_even {α : Type} (e : α → List String)
    (he : ∀ x, (e x).length % 2 = 0) :
    ∀ l : List α, (l.flatMap e).length % 2 = 0 := by
  intro l
  induction l with
  | nil => simp
  | cons x xs ih =>
    have h1 := he x
    simp only [List.flatMap_cons, List.length_append]
    omega

theorem projectHeaders_even (header : List (String × List String)) :
    (projectHeaders header).length % 2 = 0 := by
  rw [projectHeaders_eq]
  exact flatMap_even _ (fun kv => flatMap_even _ (fun v => specEmit_even kv.1 v) kv.2) header

theorem specFwdHost_even (req : Request) : (specFwdHost req).length % 2 = 0 := by
  unfold specFwdHost
  by_cases h1 : headerGet req.header xForwardedHost ≠ "" <;>
    by_cases h2 : req.host ≠ "" <;> simp [h1, h2]

theorem specFwdFor_even (req : Request) : (specFwdFor req).length % 2 = 0 := by
  unfold specFwdFor
  cases hsp : splitHostPort req.remoteAddr with
  | none => simp
  | some p =>
    obtain ⟨ip, port⟩ := p
    by_cases h2 : headerGet req.header xForwardedFor = "" <;> simp [h2]

theorem forwardPairs_even (req : Request) : (forwardPairs req).length % 2 = 0 := by
  rw [forwardPairs_eq]
  have h1 := specFwdHost_even req
  have h2 := specFwdFor_even req
  simp only [List.length_append]
  omega

theorem pairsMD_append :
    ∀ (a b : List String), a.length % 2 = 0 → pairsMD (a ++ b) = pairsMD a ++ pairsMD b
  | [], b, _ => by simp [pairsMD]
  | [x], b, h => by simp at h
  | x :: y :: rest, b, h => by
    have hr : rest.length % 2 = 0 := by
      simp only [List.length_cons] at h
      omega
    simp [pairsMD, pairsMD_append rest b hr]

theorem AnnotateContext_eq (dflt now : Int) (ctx : Ctx) (req : Request) :
    AnnotateContext dflt now ctx req =
      match effectiveTimeout dflt req with
      | none =>
        Except.error ⟨Code.invalidArgument,
          "invalid grpc-timeout: " ++ headerGet req.header metadataGrpcTimeout⟩
      | some timeout =>
        let pairs := projectHeaders req.header ++ forwardPairs req
        let c := if timeout ≠ 0 then Ctx.withDeadline ctx (now + timeout) else ctx
        if pairs.length = 0 then Except.ok c
        else Except.ok (Ctx.withMD c (pairsMD pairs)) := by
  unfold AnnotateContext effectiveTimeout
  by_cases h1 : headerGet req.header metadataGrpcTimeout ≠ ""
  · cases hd : timeoutDecode (headerGet req.header metadataGrpcTimeout).data with
    | none => simp [h1, hd]
    | some t => simp [h1, hd, pairs_decomp]
  · simp [h1, pairs_decomp]

theorem pairsMD_ne_nil (a : List String) (ha : a ≠ []) (he : a.length % 2 = 0) :
    pairsMD a ≠ [] := by
  match a with
  | [] => exact absurd rfl ha
  | [x] => simp at he
  | x :: y :: rest => simp [pairsMD]

/-! ### Claims -/

/-- C1, counterexample: the decode of the valid token `1000000000000S`
(10^12 seconds, whose digit prefix parses as a 64-bit integer) is not the
unit duration multiplied by the numeric prefix — the multiplication wraps
in 64-bit arithmetic. -/
theorem C1_timeoutDecode_overflow_cex :
    timeoutDecode "1000000000000S".data = some 3875820019684212736 ∧
    (3875820019684212736 : Int) ≠ 1000000000 * 1000000000000 := by
  exact ⟨by decide, by decide⟩

/-- C1, amended: for every valid timeout token `<decimal-digits><unit-char>`
whose unit character is recognized and whose digit prefix parses as a
64-bit integer, the timeout decode operation succeeds and returns the
unit's duration multiplied by the numeric prefix, the product computed in
wrapping 64-bit signed arithmetic (it equals the exact product whenever
that fits in an `int64`). -/
theorem C1_timeoutDecode_valid (ds : List Char) (u : Char) (d t : Int)
    (hds : ds.all Char.isDigit = true)
    (hp : parseInt64 ds = some t)
    (hu : timeoutUnitToDuration u = some d) :
    timeoutDecode (ds ++ [u]) = some (wrap64 (d * t)) := by
  have hne : ds ≠ [] := by
    intro h
    rw [h] at hp
    simp [parseInt64] at hp
  have hlen : ¬ (ds ++ [u]).length < 2 := by
    have h0 : 0 < ds.length := List.length_pos.mpr hne
    simp only [List.length_append, List.length_cons, List.length_nil]
    omega
  unfold timeoutDecode
  rw [if_neg hlen]
  rw [show (ds ++ [u]).getLastD ' ' = u from by simp [List.getLastD_concat]]
  rw [List.dropLast_concat, hu, hp]

/-- C1, witness for the amended theorem at the token `2H`. -/
theorem C1_timeoutDecode_valid_witness :
    ("2".data.all Char.isDigit = true) ∧ parseInt64 "2".data = some 2 ∧
    timeoutUnitToDuration 'H' = some 3600000000000 ∧
    timeoutDecode ("2".data ++ ['H']) = some (wrap64 (3600000000000 * 2)) :=
  ⟨by decide, by decide, by decide,
    C1_timeoutDecode_valid "2".data 'H' 3600000000000 2 (by decide) (by decide) (by decide)⟩

/-- C2, counterexample: the token `-5S` satisfies the claimed failure
condition (its prefix `-5` does not parse as a non-negative integer) and
none of the other failure conditions, yet the decode succeeds, so failure
is not "exactly when" the claim says. -/
theorem C2_timeoutDecode_nonneg_cex :
    timeoutDecode "-5S".data = some (-5000000000) ∧
    parsesNonNegInt64 "-5S".data.dropLast = false ∧
    ¬ "-5S".data.length < 2 ∧
    timeoutUnitToDuration ("-5S".data.getLastD ' ') = some 1000000000 :=
  ⟨by decide, by decide, by decide, by decide⟩

/-- C2, amended: the timeout decode operation fails exactly when the
token's length is less than 2, or the final character is not one of the
six recognized unit characters, or the prefix before the final character
is not accepted by the base-10 signed 64-bit integer parse (an optional
sign is allowed); for every other token it succeeds. -/
theorem C2_timeoutDecode_fails_iff (s : List Char) :
    timeoutDecode s = none ↔
      s.length < 2 ∨ timeoutUnitToDuration (s.getLastD ' ') = none ∨
        parseInt64 s.dropLast = none := by
  unfold timeoutDecode
  by_cases h1 : s.length < 2
  · simp [h1]
  · rw [if_neg h1]
    cases hu : timeoutUnitToDuration (s.getLastD ' ') with
    | none =>
      exact ⟨fun _ => Or.inr (Or.inl rfl), fun _ => rfl⟩
    | some d =>
      cases hp : parseInt64 s.dropLast with
      | none =>
        exact ⟨fun _ => Or.inr (Or.inr rfl), fun _ => rfl⟩
      | some t =>
        constructor
        · intro hx
          exact Option.noConfusion hx
        · intro hor
          rcases hor with h | h | h
          · exact absurd h h1
          · exact Option.noConfusion h
          · exact Option.noConfusion h

/-- C3: whenever the transaction carries a non-empty `Grpc-Timeout` header
value which the timeout codec rejects, `AnnotateContext` returns an
`InvalidArgument`-class error carrying the offending token and no context
at all (the Go function returns `(nil, err)`, modelled as `Except.error`). -/
theorem C3_annotate_timeout_fatal (dflt now : Int) (ctx : Ctx) (req : Request)
    (h1 : headerGet req.header metadataGrpcTimeout ≠ "")
    (h2 : timeoutDecode (headerGet req.header metadataGrpcTimeout).data = none) :
    AnnotateContext dflt now ctx req =
      Except.error ⟨Code.invalidArgument,
        "invalid grpc-timeout: " ++ headerGet req.header metadataGrpcTimeout⟩ := by
  rw [AnnotateContext_eq]
  have heff : effectiveTimeout dflt req = none := by
    simp [effectiveTimeout, h1, h2]
  rw [heff]

/-- C3, witness at the request carrying `Grpc-Timeout: bogus`. -/
theorem C3_annotate_timeout_fatal_witness :
    headerGet [("Grpc-Timeout", ["bogus"])] metadataGrpcTimeout ≠ "" ∧
    timeoutDecode (headerGet [("Grpc-Timeout", ["bogus"])] metadataGrpcTimeout).data = none ∧
    AnnotateContext 0 0 Ctx.base ⟨[("Grpc-Timeout", ["bogus"])], "", ""⟩ =
      Except.error ⟨Code.invalidArgument,
        "invalid grpc-timeout: " ++ headerGet [("Grpc-Timeout", ["bogus"])] metadataGrpcTimeout⟩ :=
  ⟨by decide, by decide,
    C3_annotate_timeout_fatal 0 0 Ctx.base ⟨[("Grpc-Timeout", ["bogus"])], "", ""⟩
      (by decide) (by decide)⟩

/-- C4: the header projection is exactly the per-value rule of the spec —
each value of a header named exactly `Authorization` yields
`(authorization, value)`, each value of a header beginning with
`Grpc-Metadata-` yields the stripped name verbatim paired with the value,
any other header yields nothing, and per-header value order is preserved
(the emitted list concatenates each header entry's per-value emissions in
order). -/
theorem C4_projectHeaders_spec (header : List (String × List String)) :
    projectHeaders header =
      header.flatMap (fun kv => kv.2.flatMap (fun val => specEmit kv.1 val)) :=
  projectHeaders_eq header

/-- C5: the forwarding annotation is exactly the spec's rule — an
`x-forwarded-host` pair from the explicit forwarded-host header value if
present else the declared host if non-empty else nothing, followed by an
`x-forwarded-for` pair joining the raw first inbound `X-Forwarded-For`
value (comma-space, existing value first) with the remote IP when the
remote address splits as host:port, and nothing for it when the address
cannot be split — and in the latter case annotation still succeeds (for
any transaction whose timeout step succeeds, the call returns a context,
never an error). -/
theorem C5_forward_spec (req : Request) (dflt now t : Int) (ctx : Ctx)
    (ht : effectiveTimeout dflt req = some t) :
    forwardPairs req = specFwdHost req ++ specFwdFor req ∧
    ∃ c, AnnotateContext dflt now ctx req = Except.ok c := by
  refine ⟨forwardPairs_eq req, ?_⟩
  rw [AnnotateContext_eq, ht]
  dsimp only
  split_ifs <;> exact ⟨_, rfl⟩

/-- C5, witness at a transaction with remote address `10.0.0.5:4321` and
an inbound `X-Forwarded-For: 1.2.3.4`. -/
theorem C5_forward_spec_witness :
    effectiveTimeout 0 ⟨[("X-Forwarded-For", ["1.2.3.4"])], "example.com", "10.0.0.5:4321"⟩ = some 0 ∧
    (forwardPairs ⟨[("X-Forwarded-For", ["1.2.3.4"])], "example.com", "10.0.0.5:4321"⟩ =
        specFwdHost ⟨[("X-Forwarded-For", ["1.2.3.4"])], "example.com", "10.0.0.5:4321"⟩ ++
          specFwdFor ⟨[("X-Forwarded-For", ["1.2.3.4"])], "example.com", "10.0.0.5:4321"⟩ ∧
      ∃ c, AnnotateContext 0 0 Ctx.base
          ⟨[("X-Forwarded-For", ["1.2.3.4"])], "example.com", "10.0.0.5:4321"⟩ = Except.ok c) :=
  ⟨by decide,
    C5_forward_spec ⟨[("X-Forwarded-For", ["1.2.3.4"])], "example.com", "10.0.0.5:4321"⟩
      0 0 0 Ctx.base (by decide)⟩

/-- C6: in the metadata set `AnnotateContext` attaches, every pair
produced by the header projection precedes every pair produced by the
forwarding annotation, and the insertion order of the collected pairs
(duplicate keys included) is preserved — the attached set is the
order-preserving pairing of the projected list followed by the forwarding
list. -/
theorem C6_md_order (dflt now : Int) (ctx : Ctx) (req : Request) (c : Ctx)
    (h : AnnotateContext dflt now ctx req = Except.ok c)
    (hne : projectHeaders req.header ++ forwardPairs req ≠ []) :
    attachedMD c =
      some (pairsMD (projectHeaders req.header) ++ pairsMD (forwardPairs req)) := by
  rw [AnnotateContext_eq] at h
  cases ht : effectiveTimeout dflt req with
  | none =>
    rw [ht] at h
    exact Except.noConfusion h
  | some t =>
    rw [ht] at h
    dsimp only at h
    rw [if_neg (by simpa [List.length_eq_zero] using hne)] at h
    cases h
    show some _ = _
    rw [pairsMD_append _ _ (projectHeaders_even req.header)]

/-- C6, witness at a transaction with one `Authorization` header and a
splittable remote address. -/
theorem C6_md_order_witness :
    attachedMD (Ctx.withMD Ctx.base
        [("authorization", "Bearer xyz"), ("x-forwarded-for", "10.0.0.5")]) =
      some (pairsMD (projectHeaders [("Authorization", ["Bearer xyz"])]) ++
        pairsMD (forwardPairs ⟨[("Authorization", ["Bearer xyz"])], "", "10.0.0.5:4321"⟩)) :=
  C6_md_order 0 0 Ctx.base ⟨[("Authorization", ["Bearer xyz"])], "", "10.0.0.5:4321"⟩
    (Ctx.withMD Ctx.base [("authorization", "Bearer xyz"), ("x-forwarded-for", "10.0.0.5")])
    (by rfl) (by decide)

/-- C7: when `AnnotateContext` succeeds and the effective timeout (the
decoded `Grpc-Timeout` token when present, else the process default) is
non-zero, the returned context carries a deadline equal to now plus that
timeout; when the effective timeout is zero, the returned context's
deadline is unchanged from the input context's. -/
theorem C7_deadline (dflt now t : Int) (ctx : Ctx) (req : Request) (c : Ctx)
    (h : AnnotateContext dflt now ctx req = Except.ok c)
    (ht : effectiveTimeout dflt req = some t) :
    (t ≠ 0 → Ctx.deadline c = some (now + t)) ∧
    (t = 0 → Ctx.deadline c = Ctx.deadline ctx) := by
  rw [AnnotateContext_eq, ht] at h
  dsimp only at h
  by_cases hp : (projectHeaders req.header ++ forwardPairs req).length = 0
  · rw [if_pos hp] at h
    cases h
    constructor
    · intro h0
      simp [h0, Ctx.deadline]
    · intro h0
      simp [h0]
  · rw [if_neg hp] at h
    cases h
    constructor
    · intro h0
      simp [h0, Ctx.deadline]
    · intro h0
      simp [h0, Ctx.deadline]

/-- C7, witness at a transaction carrying `Grpc-Timeout: 100m` (effective
timeout 100 milliseconds) against a default of 7 at time 100. -/
theorem C7_deadline_witness :
    ((100000000 : Int) ≠ 0 →
      Ctx.deadline (Ctx.withDeadline Ctx.base 100000100) = some (100 + 100000000)) ∧
    ((100000000 : Int) = 0 →
      Ctx.deadline (Ctx.withDeadline Ctx.base 100000100) = Ctx.deadline Ctx.base) :=
  C7_deadline 7 100 100000000 Ctx.base ⟨[("Grpc-Timeout", ["100m"])], "", ""⟩
    (Ctx.withDeadline Ctx.base 100000100) (by rfl) (by decide)

/-- C8: when `AnnotateContext` succeeds, the collected pair list being
empty means the context from the deadline step is returned unchanged — no
metadata is attached, and reading metadata yields absent whenever the
input context carried none — while a non-empty pair list means the
returned context's attached metadata set is the pairing of the collected
list, which is non-empty. -/
theorem C8_md_presence (dflt now t : Int) (ctx : Ctx) (req : Request) (c : Ctx)
    (h : AnnotateContext dflt now ctx req = Except.ok c)
    (ht : effectiveTimeout dflt req = some t) :
    (projectHeaders req.header ++ forwardPairs req = [] →
      c = (if t ≠ 0 then Ctx.withDeadline ctx (now + t) else ctx) ∧
      (mdFromContext ctx = none → mdFromContext c = none)) ∧
    (projectHeaders req.header ++ forwardPairs req ≠ [] →
      attachedMD c = some (pairsMD (projectHeaders req.header ++ forwardPairs req)) ∧
      pairsMD (projectHeaders req.header ++ forwardPairs req) ≠ []) := by
  rw [AnnotateContext_eq, ht] at h
  dsimp only at h
  by_cases hp : (projectHeaders req.header ++ forwardPairs req).length = 0
  · rw [if_pos hp] at h
    cases h
    constructor
    · intro _
      refine ⟨rfl, ?_⟩
      intro hmd
      by_cases h0 : t ≠ 0 <;> simp [h0, mdFromContext, hmd]
    · intro hne
      exact absurd (List.length_eq_zero.mp hp) hne
  · rw [if_neg hp] at h
    cases h
    constructor
    · intro hnil
      exact absurd (by simp [hnil]) hp
    · intro hne
      refine ⟨rfl, ?_⟩
      refine pairsMD_ne_nil _ hne ?_
      have h1 := projectHeaders_even req.header
      have h2 := forwardPairs_even req
      simp only [List.length_append]
      omega

/-- C8, witness at a transaction with no projectable headers, no host and
no remote address (empty pair list, context returned unchanged). -/
theorem C8_md_presence_witness :
    (projectHeaders (Request.mk [] "" "").header ++ forwardPairs ⟨[], "", ""⟩ = [] →
      Ctx.base = (if (0 : Int) ≠ 0 then Ctx.withDeadline Ctx.base (0 + 0) else Ctx.base) ∧
      (mdFromContext Ctx.base = none → mdFromContext Ctx.base = none)) ∧
    (projectHeaders (Request.mk [] "" "").header ++ forwardPairs ⟨[], "", ""⟩ ≠ [] →
      attachedMD Ctx.base =
        some (pairsMD (projectHeaders (Request.mk [] "" "").header ++ forwardPairs ⟨[], "", ""⟩)) ∧
      pairsMD (projectHeaders (Request.mk [] "" "").header ++ forwardPairs ⟨[], "", ""⟩) ≠ []) :=
  C8_md_presence 0 0 0 Ctx.base ⟨[], "", ""⟩ Ctx.base (by rfl) (by decide)

/-- C9, counterexample: retrieving from a descendant of the derived
context does not always return the carrier that was supplied — a
descendant that attaches a second carrier shadows the first, so the claim
quantified over all descendants is false. -/
theorem C9_descendant_cex :
    ¬ (∀ (ctx : Ctx) (md : ServerMetadata) (d : Ctx),
        DerivedFrom (NewServerMetadataContext ctx md) d →
        ServerMetadataFromContext d = some md) := by
  intro hclaim
  have hder : DerivedFrom (NewServerMetadataContext Ctx.base ⟨[], []⟩)
      (Ctx.withServerMD (NewServerMetadataContext Ctx.base ⟨[], []⟩) ⟨[("a", ["b"])], []⟩) :=
    DerivedFrom.server _ (DerivedFrom.refl _)
  have hcontra := hclaim Ctx.base ⟨[], []⟩ _ hder
  simp [ServerMetadataFromContext] at hcontra

/-- C9, amended: attaching a carrier and then retrieving from the derived
context, or from any descendant on whose derivation path no further
carrier was attached, returns exactly the supplied carrier with
`present = true`; retrieving from a context on whose ancestor chain no
carrier was ever attached returns `present = false`, with no default
carrier synthesized. -/
theorem C9_carrier_roundtrip :
    (∀ (ctx : Ctx) (md : ServerMetadata) (d : Ctx),
        DerivedNoCarrier (NewServerMetadataContext ctx md) d →
        ServerMetadataFromContext d = some md) ∧
    (∀ c : Ctx, noCarrier c = true → ServerMetadataFromContext c = none) := by
  constructor
  · intro ctx md d hd
    induction hd with
    | refl => rfl
    | deadline dl hder ih => exact ih
    | md m hder ih => exact ih
  · intro c hc
    induction c with
    | base => rfl
    | withDeadline p dl ih => exact ih hc
    | withMD p m ih => exact ih hc
    | withServerMD p m ih => exact Bool.noConfusion hc

/-- C9, witness: a direct attach/retrieve round-trip, and a retrieve on a
chain that never attached a carrier. -/
theorem C9_carrier_roundtrip_witness :
    ServerMetadataFromContext
        (NewServerMetadataContext Ctx.base ⟨[("k", ["v"])], []⟩) = some ⟨[("k", ["v"])], []⟩ ∧
    ServerMetadataFromContext (Ctx.withDeadline Ctx.base 5) = none :=
  ⟨C9_carrier_roundtrip.1 Ctx.base ⟨[("k", ["v"])], []⟩ _ (DerivedNoCarrier.refl _),
    C9_carrier_roundtrip.2 (Ctx.withDeadline Ctx.base 5) rfl⟩

/-! ### Header filtering lemmas for C10 -/

theorem headerGet_filter_self (h : List (String × List String)) (k : String) :
    headerGet (h.filter (fun kv => kv.1 != k)) k = "" := by
  have hall : ∀ x ∈ h.filter (fun kv => kv.1 != k), ¬ ((fun kv => kv.1 == k) x = true) := by
    intro x hx
    have hmem := List.mem_filter.mp hx
    simpa using hmem.2
  simp [headerGet, List.find?_eq_none.mpr hall]

theorem headerGet_cons_neg (kv : String × List String) (rest : List (String × List String))
    (key : String) (hpred : ¬ ((kv.1 == key) = true)) :
    headerGet (kv :: rest) key = headerGet rest key := by
  unfold headerGet
  have hfind : List.find? (fun kv => kv.1 == key) (kv :: rest) =
      List.find? (fun kv => kv.1 == key) rest :=
    List.find?_cons_of_neg rest hpred
  rw [hfind]

theorem headerGet_cons_pos (kv : String × List String) (rest : List (String × List String))
    (key : String) (hpred : (kv.1 == key) = true) :
    headerGet (kv :: rest) key = kv.2.headD "" := by
  unfold headerGet
  have hfind : List.find? (fun kv => kv.1 == key) (kv :: rest) = some kv :=
    List.find?_cons_of_pos rest hpred
  rw [hfind]

theorem headerGet_filter_other (h : List (String × List String)) (k key : String)
    (hne : key ≠ k) :
    headerGet (h.filter (fun kv => kv.1 != k)) key = headerGet h key := by
  induction h with
  | nil => rfl
  | cons kv rest ih =>
    by_cases hk : kv.1 = k
    · have hfc : (kv :: rest).filter (fun kv => kv.1 != k) =
          rest.filter (fun kv => kv.1 != k) := by
        simp [List.filter_cons, hk]
      have hpred : ¬ ((kv.1 == key) = true) := by
        simp [hk]
        exact fun he => hne he.symm
      rw [hfc, ih, headerGet_cons_neg kv rest key hpred]
    · have hfc : (kv :: rest).filter (fun kv => kv.1 != k) =
          kv :: rest.filter (fun kv => kv.1 != k) := by
        simp [List.filter_cons, hk]
      rw [hfc]
      by_cases hkeq : kv.1 = key
      · rw [headerGet_cons_pos kv _ key (by simp [hkeq]),
          headerGet_cons_pos kv rest key (by simp [hkeq])]
      · rw [headerGet_cons_neg kv _ key (by simp [hkeq]),
          headerGet_cons_neg kv rest key (by simp [hkeq]), ih]

theorem specEmit_grpcTimeout (v : String) : specEmit metadataGrpcTimeout v = [] := by
  unfold specEmit metadataGrpcTimeout
  rw [if_neg (by decide), if_neg (by decide)]

theorem flatMap_specEmit_timeout (vs : List String) :
    (vs.flatMap fun val => specEmit metadataGrpcTimeout val) = [] := by
  induction vs with
  | nil => rfl
  | cons v rest ih => simp [List.flatMap_cons, specEmit_grpcTimeout, ih]

theorem projectHeaders_filter_timeout (h : List (String × List String)) :
    projectHeaders (h.filter (fun kv => kv.1 != metadataGrpcTimeout)) = projectHeaders h := by
  rw [projectHeaders_eq, projectHeaders_eq]
  induction h with
  | nil => rfl
  | cons kv rest ih =>
    by_cases hk : kv.1 = metadataGrpcTimeout
    · have hfc : (kv :: rest).filter (fun kv => kv.1 != metadataGrpcTimeout) =
          rest.filter (fun kv => kv.1 != metadataGrpcTimeout) := by
        simp [List.filter_cons, hk]
      rw [hfc, ih, List.flatMap_cons]
      simp only [hk, flatMap_specEmit_timeout, List.nil_append]
    · have hfc : (kv :: rest).filter (fun kv => kv.1 != metadataGrpcTimeout) =
          kv :: rest.filter (fun kv => kv.1 != metadataGrpcTimeout) := by
        simp [List.filter_cons, hk]
      rw [hfc, List.flatMap_cons, List.flatMap_cons, ih]

theorem forwardPairs_delete (req : Request) :
    forwardPairs (deleteGrpcTimeout req) = forwardPairs req := by
  rw [forwardPairs_eq, forwardPairs_eq]
  unfold specFwdHost specFwdFor deleteGrpcTimeout
  simp only [headerGet_filter_other req.header metadataGrpcTimeout xForwardedHost (by decide),
    headerGet_filter_other req.header metadataGrpcTimeout xForwardedFor (by decide)]

/-- C10: a transaction whose `Grpc-Timeout` header is present and decodes
to the zero duration annotates successfully with no deadline imposed (the
returned context's deadline is the input context's), and the whole result
equals the annotation of the same transaction with the token absent under
a zero default timeout. -/
theorem C10_zero_token (dflt now : Int) (ctx : Ctx) (req : Request)
    (h1 : headerGet req.header metadataGrpcTimeout ≠ "")
    (h2 : timeoutDecode (headerGet req.header metadataGrpcTimeout).data = some 0) :
    (∃ c, AnnotateContext dflt now ctx req = Except.ok c ∧
      Ctx.deadline c = Ctx.deadline ctx) ∧
    AnnotateContext dflt now ctx req = AnnotateContext 0 now ctx (deleteGrpcTimeout req) := by
  have hteff : effectiveTimeout dflt req = some 0 := by
    simp [effectiveTimeout, h1, h2]
  have hteff2 : effectiveTimeout 0 (deleteGrpcTimeout req) = some 0 := by
    simp [effectiveTimeout, deleteGrpcTimeout, headerGet_filter_self]
  have hproj : projectHeaders (deleteGrpcTimeout req).header = projectHeaders req.header :=
    projectHeaders_filter_timeout req.header
  have hfwd : forwardPairs (deleteGrpcTimeout req) = forwardPairs req :=
    forwardPairs_delete req
  constructor
  · rw [AnnotateContext_eq, hteff]
    dsimp only
    by_cases hp : (projectHeaders req.header ++ forwardPairs req).length = 0
    · rw [if_pos hp]
      refine ⟨_, rfl, ?_⟩
      simp
    · rw [if_neg hp]
      refine ⟨_, rfl, ?_⟩
      simp [Ctx.deadline]
  · rw [AnnotateContext_eq, AnnotateContext_eq, hteff, hteff2]
    dsimp only
    rw [hproj, hfwd]

/-- C10, witness at the transaction carrying `Grpc-Timeout: 0S`. -/
theorem C10_zero_token_witness :
    (∃ c, AnnotateContext 7 100 Ctx.base ⟨[("Grpc-Timeout", ["0S"])], "", ""⟩ = Except.ok c ∧
      Ctx.deadline c = Ctx.deadline Ctx.base) ∧
    AnnotateContext 7 100 Ctx.base ⟨[("Grpc-Timeout", ["0S"])], "", ""⟩ =
      AnnotateContext 0 100 Ctx.base (deleteGrpcTimeout ⟨[("Grpc-Timeout", ["0S"])], "", ""⟩) :=
  C10_zero_token 7 100 Ctx.base ⟨[("Grpc-Timeout", ["0S"])], "", ""⟩ (by decide) (by decide)

end GrpcGatewayRuntime
